import Mathlib

/-!
Shallow embedding of `src/task1.py`, a CLI contact manager ("assistant bot").

Python strings are modelled as Lean `String` (a list of Unicode code points,
matching Python `str` length/indexing semantics).  Python exceptions are
modelled by the `Except` monad over an explicit exception type.  Mutation of
the shared `AddressBook` is modelled by explicit state passing: a handler
returns its result together with the (possibly updated) book — note that a
handler can update the book *and* raise, which is exactly what the Python
code does (the book object is mutated in place before the exception leaves
the handler).

Unicode caveats, stated once here and referenced below:
* `str.lower` is modelled on ASCII letters (`pyLower`); every name used in a
  concrete theorem below is ASCII, where the model is exact.
* the regex class `\d` (Unicode category Nd) and the digits accepted by
  `strptime` are modelled on the ASCII digits `0`-`9` (`asciiDigit`);
* `str.isdigit` additionally accepts characters with Unicode property
  Numeric_Type=Digit that are *not* in category Nd, e.g. the superscript and
  subscript digits; `pyIsDigitChar` models this with the Latin-1/superscript/
  subscript digit characters (an under-approximation of the full Unicode
  table; every character listed does satisfy Python `str.isdigit`, and none
  of the listed extra characters is matched by `\d`).
-/

set_option autoImplicit false

namespace Task1

/-- Python exception kinds that can escape the handlers of `task1.py`:
`ValueError` (validation and tuple-unpacking failures), `IndexError` and
`KeyError` (raised explicitly for a missing record), and `AttributeError`
(attribute lookup on an object that lacks it). -/
inductive PyExc where
  | valueError (msg : String)
  | indexError
  | keyError
  | attributeError (msg : String)
  deriving Repr, DecidableEq

/-- Whitespace for Python `str.strip()` / `str.split()` (no separator):
space, tab, newline, carriage return, vertical tab, form feed. -/
def pyIsSpace (c : Char) : Bool :=
  c = ' ' || c = '\t' || c = '\n' || c = '\r' || c = '\x0b' || c = '\x0c'

/-- Python `str.lower()`, modelled on ASCII letters. -/
def pyLower (s : String) : String :=
  String.mk (s.toList.map Char.toLower)

/-- Accumulator worker for `pySplit`: `cur` is the current token, reversed. -/
def pyTokensGo : List Char → List Char → List String
  | [], cur => if cur.isEmpty then [] else [String.mk cur.reverse]
  | c :: cs, cur =>
    if pyIsSpace c then
      if cur.isEmpty then pyTokensGo cs [] else String.mk cur.reverse :: pyTokensGo cs []
    else pyTokensGo cs (c :: cur)

/-- Python `str.split()` with no separator: split on runs of whitespace,
discarding empty tokens. -/
def pySplit (s : String) : List String :=
  pyTokensGo s.toList []

/-- Python `str.strip()`: drop leading and trailing whitespace. -/
def pyStrip (s : String) : String :=
  String.mk (((s.toList.dropWhile pyIsSpace).reverse.dropWhile pyIsSpace).reverse)

/-- An ASCII decimal digit `0`-`9`; model of the regex class `\d`
(see the Unicode caveats in the module docstring). -/
def asciiDigit (c : Char) : Bool :=
  48 ≤ c.toNat && c.toNat ≤ 57

/-- Non-`Nd` characters with Unicode property Numeric_Type=Digit accepted by
Python `str.isdigit`: the Latin-1 superscripts and the superscript/subscript
digit block (an under-approximation of the full Unicode table). -/
def extraDigitChars : List Char :=
  ['¹', '²', '³', '⁰', '⁴', '⁵', '⁶', '⁷', '⁸', '⁹',
   '₀', '₁', '₂', '₃', '₄', '₅', '₆', '₇', '₈', '₉']

/-- A character accepted by Python `str.isdigit`. -/
def pyIsDigitChar (c : Char) : Bool :=
  asciiDigit c || extraDigitChars.contains c

/-- Python `str.isdigit()`: nonempty and every character is a digit. -/
def pyIsdigit (s : String) : Bool :=
  !s.toList.isEmpty && s.toList.all pyIsDigitChar

/-- The numeric value of an ASCII digit character. -/
def digitVal (c : Char) : Nat := c.toNat - 48

/-- The ASCII digit character of a value `< 10`. -/
def digitChar (d : Nat) : Char := Char.ofNat (48 + d)

/-- The number denoted by a big-endian list of ASCII digit characters
(how `int()` and the `strptime` machinery read a digit group). -/
def charsVal (cs : List Char) : Nat :=
  cs.foldl (fun a c => 10 * a + digitVal c) 0

/-- Big-endian decimal digit characters of `n` (Python `str(n)` for a
nonnegative integer); empty for `0`, which never occurs in our uses. -/
def natChars (n : Nat) : List Char :=
  ((Nat.digits 10 n).map digitChar).reverse

/-- Two-digit zero-padded rendering, as `strftime` `%d` / `%m` produce for
values `< 100`. -/
def pad2 (n : Nat) : List Char :=
  if n < 10 then ['0', digitChar n] else natChars n

/-! ## Dates (the fragment of `datetime.date` the program uses) -/

/-- A Python `datetime.date` value `(year, month, day)`. -/
structure PyDate where
  year : Nat
  month : Nat
  day : Nat
  deriving Repr, DecidableEq

/-- Gregorian leap year, as `calendar.isleap` / `datetime` use. -/
def isLeap (y : Nat) : Bool :=
  y % 4 == 0 && (y % 100 != 0 || y % 400 == 0)

/-- Month lengths of year `y`, January first. -/
def monthLengths (y : Nat) : List Nat :=
  [31, if isLeap y then 29 else 28, 31, 30, 31, 30, 31, 31, 30, 31, 30, 31]

/-- Days in month `m` of year `y` (`0` when `m` is out of range). -/
def daysInMonth (y m : Nat) : Nat :=
  (monthLengths y).getD (m - 1) 0

/-- Validity of `(y, m, d)` as a `datetime.date` (`MINYEAR = 1`,
`MAXYEAR = 9999`). -/
def dateValid (y m d : Nat) : Bool :=
  1 ≤ y && y ≤ 9999 && 1 ≤ m && m ≤ 12 && 1 ≤ d && d ≤ daysInMonth y m

/-- Days in year `y` before the first of month `m`. -/
def daysBeforeMonth (y m : Nat) : Nat :=
  ((monthLengths y).take (m - 1)).sum

/-- `date.toordinal()`: day number in the proleptic Gregorian calendar,
with day 1 = 0001-01-01. -/
def toOrdinal (dt : PyDate) : Nat :=
  let py := dt.year - 1
  365 * py + (py / 4 - py / 100 + py / 400) + daysBeforeMonth dt.year dt.month + dt.day

/-- `(a - b).days` for two dates: difference of ordinals. -/
def dateSub (a b : PyDate) : Int :=
  (toOrdinal a : Int) - (toOrdinal b : Int)

/-- Python `date` comparison `a < b`: lexicographic on
(year, month, day). -/
def dateLt (a b : PyDate) : Bool :=
  a.year < b.year ||
    (a.year == b.year && (a.month < b.month ||
      (a.month == b.month && a.day < b.day)))

/-- `date.replace(year=y)`: raises `ValueError` when the month/day does not
exist in the target year (Feb 29 in a non-leap year). -/
def replaceYear (dt : PyDate) (y : Nat) : Except PyExc PyDate :=
  if dateValid y dt.month dt.day then .ok ⟨y, dt.month, dt.day⟩
  else .error (.valueError "day is out of range for month")

/-! ## Field validators -/

/-- The message of the `ValueError` raised by `Phone.__init__`. -/
def phoneErrMsg : String := "Номер телефону має складатися з 10 цифр."

/-- `Phone(value)`: succeeds, storing the string unchanged, iff
`value.isdigit() and len(value) == 10`. -/
def Phone.new (value : String) : Except PyExc String :=
  if pyIsdigit value && value.length == 10 then .ok value
  else .error (.valueError phoneErrMsg)

/-- Split a character list at every `.` (the literal separators of the
format `%d.%m.%Y`); always returns at least one (possibly empty) part. -/
def splitOnDot : List Char → List (List Char)
  | [] => [[]]
  | c :: cs =>
    if c = '.' then [] :: splitOnDot cs
    else
      match splitOnDot cs with
      | [] => [[c]]
      | p :: ps => (c :: p) :: ps

/-- The `%d` group of `_strptime.TimeRE`: `(3[01]|[12]\d|0[1-9]|[1-9])`,
i.e. one or two digit characters denoting a value in `1..31` (a leading
zero is optional; `0` and `00` do not match). -/
def dayToken (cs : List Char) : Option Nat :=
  if cs.all asciiDigit && (cs.length == 1 || cs.length == 2) then
    let v := charsVal cs
    if 1 ≤ v && v ≤ 31 then some v else none
  else none

/-- The `%m` group of `_strptime.TimeRE`: `(1[0-2]|0[1-9]|[1-9])`,
i.e. one or two digit characters denoting a value in `1..12`. -/
def monthToken (cs : List Char) : Option Nat :=
  if cs.all asciiDigit && (cs.length == 1 || cs.length == 2) then
    let v := charsVal cs
    if 1 ≤ v && v ≤ 12 then some v else none
  else none

/-- The `%Y` group of `_strptime.TimeRE`: `(\d\d\d\d)`, exactly four digit
characters. -/
def yearToken (cs : List Char) : Option Nat :=
  if cs.all asciiDigit && cs.length == 4 then some (charsVal cs) else none

/-- `datetime.strptime(s, "%d.%m.%Y").date()`: the full string must be the
three groups separated by literal dots, and the resulting triple must be a
valid `datetime.date`; otherwise `ValueError`. -/
def pyStrptimeDMY (s : String) : Except PyExc PyDate :=
  match splitOnDot s.toList with
  | [ds, ms, ys] =>
    match dayToken ds, monthToken ms, yearToken ys with
    | some d, some m, some y =>
      if dateValid y m d then .ok ⟨y, m, d⟩
      else .error (.valueError "day is out of range for month")
    | _, _, _ => .error (.valueError "time data does not match format")
  | _ => .error (.valueError "time data does not match format")

/-- The message of the `ValueError` raised by `Birthday.__init__`. -/
def birthdayErrMsg : String := "Invalid date format. Use DD.MM.YYYY"

/-- `Birthday(value)`: parse with `strptime "%d.%m.%Y"`, storing the date;
any parse failure is re-raised as `ValueError` with a fixed message. -/
def Birthday.new (value : String) : Except PyExc PyDate :=
  match pyStrptimeDMY value with
  | .ok d => .ok d
  | .error _ => .error (.valueError birthdayErrMsg)

/-- `date.strftime("%d.%m.%Y")`: zero-padded day and month; the year as
glibc renders `%Y` (unpadded — identical to the zero-padded form whenever
the year is at least 1000). -/
def formatDMY (dt : PyDate) : String :=
  String.mk (pad2 dt.day ++ '.' :: pad2 dt.month ++ '.' :: natChars dt.year)

/-- Spec-side predicate (the source never mentions a regex): the spec's
`^\d{10}$`, i.e. exactly ten decimal-digit characters.  `\d` is Unicode
category Nd, modelled here on the ASCII digits; crucially, superscript
digits such as `²` are category No, hence *not* matched by `\d`, while
Python `str.isdigit` does accept them. -/
def matchesTenDecimalDigits (s : String) : Bool :=
  s.length == 10 && s.toList.all asciiDigit

/-- Spec-side predicate: the spec's strict `DD.MM.YYYY` shape — exactly
three dot-separated groups of decimal digits of widths 2, 2 and 4. -/
def matchesDDMMYYYY (s : String) : Bool :=
  match splitOnDot s.toList with
  | [ds, ms, ys] =>
    ds.length == 2 && ms.length == 2 && ys.length == 4 && (ds ++ ms ++ ys).all asciiDigit
  | _ => false

/-- The shape `strptime "%d.%m.%Y"` actually accepts: three dot-separated
digit groups, day and month of width 1 or 2, year of width exactly 4,
denoting a valid `datetime.date`. -/
def lenientDMYFormat (s : String) : Bool :=
  match splitOnDot s.toList with
  | [ds, ms, ys] =>
    ds.all asciiDigit && ms.all asciiDigit && ys.all asciiDigit &&
      (ds.length == 1 || ds.length == 2) && (ms.length == 1 || ms.length == 2) &&
      ys.length == 4 && dateValid (charsVal ys) (charsVal ms) (charsVal ds)
  | _ => false

/-! ## Record and AddressBook -/

/-- A contact record: the `Name` wrapper collapses to its stored string, the
`Phone` objects in `self.phones` to their validated strings, and the
optional `Birthday` to its stored date. -/
structure Record where
  name : String
  phones : List String
  birthday : Option PyDate
  deriving Repr, DecidableEq

/-- `Record(name)`: empty phone list, no birthday. -/
def Record.new (name : String) : Record :=
  ⟨name, [], none⟩

/-- `Record.add_phone`: validate, then append (no deduplication). -/
def Record.add_phone (r : Record) (phone_str : String) : Except PyExc Record :=
  match Phone.new phone_str with
  | .ok v => .ok {r with phones := r.phones ++ [v]}
  | .error e => .error e

/-- The computation shared by `Record.days_to_birthday` (lines 67-70) and
`AddressBook.get_upcoming_birthdays` (lines 97-100): next occurrence of the
birthday on or after `today`, rolling a date strictly earlier this year
over to next year, then the day difference.  `date.today()` is passed in
explicitly as `today`. -/
def nextBirthdayDelta (b today : PyDate) : Except PyExc Int :=
  match replaceYear b today.year with
  | .error e => .error e
  | .ok next =>
    if dateLt next today then
      match replaceYear b (today.year + 1) with
      | .error e => .error e
      | .ok next2 => .ok (dateSub next2 today)
    else .ok (dateSub next today)

/-- `Record.days_to_birthday()`: `None` when no birthday is set, otherwise
the day count to the next occurrence. -/
def Record.days_to_birthday (r : Record) (today : PyDate) : Except PyExc (Option Int) :=
  match r.birthday with
  | none => .ok none
  | some b =>
    match nextBirthdayDelta b today with
    | .error e => .error e
    | .ok n => .ok (some n)

/-- `Record.__str__`. -/
def recordStr (r : Record) : String :=
  "Ім\x27я: " ++ r.name ++ " | Телефони: " ++
    (if r.phones.isEmpty then "Немає телефонів" else String.intercalate ", " r.phones) ++
    " | День народження: " ++
    (match r.birthday with
     | some d => formatDMY d
     | none => "Немає даних")

/-- Set key `k` to `v` in an insertion-ordered dictionary: replace in place
when the key exists, else append (Python `dict` assignment). -/
def dictSet (l : List (String × Record)) (k : String) (v : Record) : List (String × Record) :=
  match l with
  | [] => [(k, v)]
  | (k0, v0) :: rest => if k0 = k then (k, v) :: rest else (k0, v0) :: dictSet rest k v

/-- `dict.get(k)`. -/
def dictGet (l : List (String × Record)) (k : String) : Option Record :=
  match l with
  | [] => none
  | (k0, v0) :: rest => if k0 = k then some v0 else dictGet rest k

/-- `AddressBook` (a `UserDict`): insertion-ordered mapping from lowercased
name to record. -/
structure AddressBook where
  data : List (String × Record)
  deriving Repr, DecidableEq

/-- `AddressBook.add_record`: store under the lowercased name. -/
def AddressBook.add_record (book : AddressBook) (record : Record) : AddressBook :=
  ⟨dictSet book.data (pyLower record.name) record⟩

/-- `AddressBook.find`: case-insensitive lookup. -/
def AddressBook.find (book : AddressBook) (name : String) : Option Record :=
  dictGet book.data (pyLower name)

/-- Replace the record stored under the lowercased `name`; this models an
in-place mutation of a record object that `find name` aliased. -/
def AddressBook.setAt (book : AddressBook) (name : String) (r : Record) : AddressBook :=
  ⟨dictSet book.data (pyLower name) r⟩

/-- Loop body of `AddressBook.get_upcoming_birthdays`: records still to
scan, accumulated `result` list. -/
def upcomingGo (today : PyDate) (days : Int) :
    List Record → List (String × Int) → Except PyExc (List (String × Int))
  | [], acc => .ok acc
  | r :: rs, acc =>
    match r.birthday with
    | none => upcomingGo today days rs acc
    | some b =>
      match nextBirthdayDelta b today with
      | .error e => .error e
      | .ok delta =>
        upcomingGo today days rs (if delta ≤ days then acc ++ [(r.name, delta)] else acc)

/-- `AddressBook.get_upcoming_birthdays(days=7)`: scan the records in map
order, collecting `(name, delta)` for every record with a birthday whose
delta is at most `days`. -/
def AddressBook.get_upcoming_birthdays (book : AddressBook) (days : Int) (today : PyDate) :
    Except PyExc (List (String × Int)) :=
  upcomingGo today days (book.data.map Prod.snd) []

/-! ## Command handlers and the dispatch loop -/

/-- A handler outcome: the returned display string or an escaped exception,
together with the (possibly mutated) address book. -/
abbrev HResult := Except PyExc String × AddressBook

/-- Python message of a failed `a, b, *_ = args` unpacking. -/
def unpackMsg (needed got : Nat) : String :=
  "not enough values to unpack (expected at least " ++ toString needed ++
    ", got " ++ toString got ++ ")"

/-- `name, *_ = args`: `ValueError` when `args` is empty. -/
def unpack1 (args : List String) : Except PyExc String :=
  match args with
  | a :: _ => .ok a
  | _ => .error (.valueError (unpackMsg 1 args.length))

/-- `a, b, *_ = args`: `ValueError` when fewer than two tokens. -/
def unpack2 (args : List String) : Except PyExc (String × String) :=
  match args with
  | a :: b :: _ => .ok (a, b)
  | _ => .error (.valueError (unpackMsg 2 args.length))

/-- `a, b, c, *_ = args`: `ValueError` when fewer than three tokens. -/
def unpack3 (args : List String) : Except PyExc (String × String × String) :=
  match args with
  | a :: b :: c :: _ => .ok (a, b, c)
  | _ => .error (.valueError (unpackMsg 3 args.length))

/-- The `input_error` decorator: `ValueError` becomes `str(e) or "Invalid
data provided."`, `IndexError` a fixed missing-argument message, `KeyError`
a fixed not-found message; any other exception propagates.  The book state
travels through unchanged. -/
def input_error (r : HResult) : HResult :=
  match r with
  | (.ok s, b) => (.ok s, b)
  | (.error (.valueError m), b) =>
      (.ok (if m = "" then "Invalid data provided." else m), b)
  | (.error .indexError, b) => (.ok "Enter the argument for the command", b)
  | (.error .keyError, b) => (.ok "Contact not found.", b)
  | (.error e, b) => (.error e, b)

/-- `add_contact`: reuse the record found under `name` or insert a fresh
one (the insertion happens before the phone is validated), then validate
and append the phone when the token is nonempty. -/
def add_contact (args : List String) (book : AddressBook) : HResult :=
  match unpack2 args with
  | .error e => (.error e, book)
  | .ok (name, phoneArg) =>
    match book.find name with
    | some record =>
      if phoneArg = "" then (.ok "Контакт оновлено.", book)
      else
        match Phone.new phoneArg with
        | .ok v => (.ok "Контакт оновлено.",
            book.setAt name {record with phones := record.phones ++ [v]})
        | .error e => (.error e, book)
    | none =>
      let record := Record.new name
      let book1 := book.add_record record
      if phoneArg = "" then (.ok "Контакт додано.", book1)
      else
        match Phone.new phoneArg with
        | .ok v => (.ok "Контакт додано.",
            book1.setAt name {record with phones := record.phones ++ [v]})
        | .error e => (.error e, book1)

/-- Python message of the failed `record.edit_phone` attribute lookup:
`Record` defines no method `edit_phone`, so the call in `change_contact`
raises `AttributeError`. -/
def editPhoneMsg : String :=
  "\x27Record\x27 object has no attribute \x27edit_phone\x27"

/-- `change_contact`: unpack three tokens, `KeyError` when the record is
absent; on an existing record the source calls `record.edit_phone(...)`,
a method `Record` does not define, so `AttributeError` is raised. -/
def change_contact (args : List String) (book : AddressBook) : HResult :=
  match unpack3 args with
  | .error e => (.error e, book)
  | .ok (name, _oldPhone, _newPhone) =>
    match book.find name with
    | none => (.error .keyError, book)
    | some _ => (.error (.attributeError editPhoneMsg), book)

/-- `phone`: list the phones of an existing record. -/
def phone (args : List String) (book : AddressBook) : HResult :=
  match unpack1 args with
  | .error e => (.error e, book)
  | .ok name =>
    match book.find name with
    | none => (.error .keyError, book)
    | some record =>
      if record.phones.isEmpty then (.ok "Немає телефонів.", book)
      else (.ok (String.intercalate "; " record.phones), book)

/-- `show_all`: render every record, one line each. -/
def show_all (_args : List String) (book : AddressBook) : HResult :=
  if book.data.isEmpty then (.ok "Адресна книга порожня.", book)
  else (.ok (String.intercalate "\n" (book.data.map (fun p => recordStr p.2))), book)

/-- `add_birthday` handler: set the birthday on an existing record and
return the confirmation message of `Record.add_birthday`. -/
def add_birthday (args : List String) (book : AddressBook) : HResult :=
  match unpack2 args with
  | .error e => (.error e, book)
  | .ok (name, birthday_str) =>
    match book.find name with
    | none => (.error .keyError, book)
    | some record =>
      match Birthday.new birthday_str with
      | .error e => (.error e, book)
      | .ok d =>
        (.ok ("День народження для " ++ record.name ++ " встановлено на " ++
            formatDMY d ++ "."),
          book.setAt name {record with birthday := some d})

/-- `show_birthday` handler. -/
def show_birthday (args : List String) (book : AddressBook) : HResult :=
  match unpack1 args with
  | .error e => (.error e, book)
  | .ok name =>
    match book.find name with
    | none => (.error .keyError, book)
    | some record =>
      match record.birthday with
      | some d => (.ok (record.name ++ "\x27s birthday: " ++ formatDMY d), book)
      | none => (.ok "Дата народження не встановлена.", book)

/-- `birthdays` handler: the upcoming-birthday scan with a 7-day window. -/
def birthdays (today : PyDate) (_args : List String) (book : AddressBook) : HResult :=
  match book.get_upcoming_birthdays 7 today with
  | .error e => (.error e, book)
  | .ok [] => (.ok "Немає контактів з днем народження протягом наступного тижня.", book)
  | .ok ups =>
    (.ok (String.intercalate "\n"
        (ups.map (fun p => p.1 ++ " через " ++ toString p.2 ++ " днів"))), book)

/-- `parse_input`: strip, split on whitespace, lowercase the first token;
`("", [])` for an all-whitespace line. -/
def parse_input (user_input : String) : String × List String :=
  match pySplit (pyStrip user_input) with
  | [] => ("", [])
  | c :: rest => (pyLower c, rest)

/-- Outcome of one iteration of the `main` loop on one input line:
continue with printed output, terminate normally (`exit`/`close`), or
crash on an exception no one catches. -/
inductive StepResult where
  | cont (out : Option String) (book : AddressBook)
  | halt (out : Option String) (book : AddressBook)
  | crash (e : PyExc) (book : AddressBook)
  deriving Repr, DecidableEq

/-- Print a decorated handler result, or crash when an exception escaped
the decorator. -/
def runHandler (r : HResult) : StepResult :=
  match input_error r with
  | (.ok s, b) => .cont (some s) b
  | (.error e, b) => .crash e b

/-- One iteration of the `main` loop (lines 202-226): parse the line and
dispatch on the command name. -/
def mainStep (today : PyDate) (book : AddressBook) (line : String) : StepResult :=
  let p := parse_input line
  let command := p.1
  let args := p.2
  if command = "exit" ∨ command = "close" then .halt (some "Good bye!") book
  else if command = "hello" then .cont (some "How can I help you?") book
  else if command = "add" then runHandler (add_contact args book)
  else if command = "change" then runHandler (change_contact args book)
  else if command = "phone" then runHandler (phone args book)
  else if command = "all" then runHandler (show_all args book)
  else if command = "add-birthday" then runHandler (add_birthday args book)
  else if command = "show-birthday" then runHandler (show_birthday args book)
  else if command = "birthdays" then runHandler (birthdays today args book)
  else .cont (some "Invalid command.") book

/-! ## Helper lemmas -/

/-- Looking up the key just stored returns the stored value. -/
theorem dictGet_dictSet (l : List (String × Record)) (k : String) (v : Record) :
    dictGet (dictSet l k v) k = some v := by
  induction l with
  | nil => simp [dictSet, dictGet]
  | cons p rest ih =>
    obtain ⟨k0, v0⟩ := p
    by_cases h : k0 = k
    · simp [dictSet, dictGet, h]
    · simp [dictSet, dictGet, h, ih]

/-! ## Claims -/

/-- C1: the spec says `change name old new` replaces the old phone on an
existing record.  The code cannot: `change_contact` calls
`record.edit_phone(...)`, and `Record` defines no `edit_phone`, so on any
existing record the handler raises `AttributeError`, the record keeps its
old phones, and `input_error` (which only catches `ValueError`,
`IndexError` and `KeyError`) does not convert the exception. -/
theorem c1_change_on_existing_record_raises :
    (AddressBook.find ⟨[("john", ⟨"John", ["1234567890"], none⟩)]⟩ "John"
        = some ⟨"John", ["1234567890"], none⟩)
    ∧ change_contact ["John", "1234567890", "5551234567"]
          ⟨[("john", ⟨"John", ["1234567890"], none⟩)]⟩
        = (.error (.attributeError editPhoneMsg),
           ⟨[("john", ⟨"John", ["1234567890"], none⟩)]⟩)
    ∧ input_error (change_contact ["John", "1234567890", "5551234567"]
          ⟨[("john", ⟨"John", ["1234567890"], none⟩)]⟩)
        = (.error (.attributeError editPhoneMsg),
           ⟨[("john", ⟨"John", ["1234567890"], none⟩)]⟩) :=
  ⟨rfl, rfl, rfl⟩

/-- C2: `ValueError`, `IndexError` and `KeyError` raised inside a handler
are converted to display strings at the dispatch boundary — but not every
command invocation is recovered: `change` on an existing contact raises an
`AttributeError` that `input_error` does not catch, so that invocation
crashes the loop. -/
theorem c2_dispatch_error_conversion_and_crash :
    (∀ (b : AddressBook) (m : String), m ≠ "" →
        input_error (.error (.valueError m), b) = (.ok m, b))
    ∧ (∀ b : AddressBook,
        input_error (.error .indexError, b) = (.ok "Enter the argument for the command", b))
    ∧ (∀ b : AddressBook,
        input_error (.error .keyError, b) = (.ok "Contact not found.", b))
    ∧ mainStep ⟨2024, 1, 1⟩ ⟨[("john", ⟨"John", ["1234567890"], none⟩)]⟩
        "change John 1234567890 5551234567"
        = .crash (.attributeError editPhoneMsg)
            ⟨[("john", ⟨"John", ["1234567890"], none⟩)]⟩ := by
  refine ⟨?_, fun b => rfl, fun b => rfl, rfl⟩
  intro b m h
  simp [input_error, h]

/-- Closed instance of the first part of the C2 theorem. -/
theorem c2_witness :
    input_error (.error (.valueError "boom"), (⟨[]⟩ : AddressBook)) = (.ok "boom", ⟨[]⟩) :=
  c2_dispatch_error_conversion_and_crash.1 ⟨[]⟩ "boom" (by decide)

/-- C3 counterexample: on an empty input line the loop does NOT stay
silent — the parsed command is `""`, which falls through to the `else`
branch, so the generic invalid-command message is printed. -/
theorem c3_counterexample_empty_line_prints :
    mainStep ⟨2024, 1, 1⟩ ⟨[]⟩ "" = .cont (some "Invalid command.") ⟨[]⟩ :=
  rfl

/-- C3 (amended): any line whose parsed command is not one of the
recognized command words — including the empty line, whose parsed command
is `""` — produces the generic invalid-command message and the loop
continues with the book unchanged. -/
theorem c3_unrecognized_command_message (today : PyDate) (book : AddressBook)
    (line cmd : String) (args : List String)
    (hparse : parse_input line = (cmd, args))
    (hcmd : cmd ∉ ["exit", "close", "hello", "add", "change", "phone", "all",
        "add-birthday", "show-birthday", "birthdays"]) :
    mainStep today book line = .cont (some "Invalid command.") book := by
  simp only [List.mem_cons, List.not_mem_nil, or_false, not_or] at hcmd
  obtain ⟨h1, h2, h3, h4, h5, h6, h7, h8, h9, h10⟩ := hcmd
  simp [mainStep, hparse, h1, h2, h3, h4, h5, h6, h7, h8, h9, h10]

/-- Closed instance of the C3 amended theorem at a nonempty unrecognized
line. -/
theorem c3_witness :
    mainStep ⟨2024, 1, 1⟩ ⟨[]⟩ "frobnicate John" = .cont (some "Invalid command.") ⟨[]⟩ :=
  c3_unrecognized_command_message ⟨2024, 1, 1⟩ ⟨[]⟩ "frobnicate John" "frobnicate"
    ["John"] rfl (by decide)

/-- C4 counterexample: `add John` (one token) is surfaced as Python's
tuple-unpacking `ValueError` text, not as the fixed missing-argument
message `Enter the argument for the command`. -/
theorem c4_counterexample_unpack_message :
    input_error (add_contact ["John"] ⟨[]⟩)
      = (.ok "not enough values to unpack (expected at least 2, got 1)", ⟨[]⟩)
    ∧ "not enough values to unpack (expected at least 2, got 1)"
        ≠ "Enter the argument for the command" :=
  ⟨rfl, by decide⟩

/-- C4 (amended): a handler invocation with fewer tokens than it unpacks
raises `ValueError` from tuple unpacking, and the dispatcher surfaces that
message verbatim through the same branch as validation errors; the fixed
missing-argument message is tied to `IndexError`, which the handlers never
raise. -/
theorem c4_missing_args_surface_unpack_message (args : List String) (book : AddressBook)
    (h : args.length < 2) :
    input_error (add_contact args book) = (.ok (unpackMsg 2 args.length), book) := by
  rcases args with _ | ⟨a, _ | ⟨b, rest⟩⟩
  · rfl
  · rfl
  · exact absurd h (by simp)

/-- Closed instance of the C4 amended theorem. -/
theorem c4_witness :
    input_error (add_contact ["John"] ⟨[]⟩) = (.ok (unpackMsg 2 1), ⟨[]⟩) :=
  c4_missing_args_surface_unpack_message ["John"] ⟨[]⟩ (by decide)

/-- C8: `days_to_birthday` is `None` without a birthday; from today
2024-01-01 a birthday of 2020-01-10 gives 9 and one of 2020-01-01 gives 0;
and in general a next-occurrence date strictly earlier than today rolls
over to the following year. -/
theorem c8_days_to_birthday :
    (∀ (r : Record) (today : PyDate), r.birthday = none →
        r.days_to_birthday today = .ok none)
    ∧ Record.days_to_birthday ⟨"John", [], some ⟨2020, 1, 10⟩⟩ ⟨2024, 1, 1⟩ = .ok (some 9)
    ∧ Record.days_to_birthday ⟨"John", [], some ⟨2020, 1, 1⟩⟩ ⟨2024, 1, 1⟩ = .ok (some 0)
    ∧ (∀ (b today next next2 : PyDate),
        replaceYear b today.year = .ok next →
        dateLt next today = true →
        replaceYear b (today.year + 1) = .ok next2 →
        nextBirthdayDelta b today = .ok (dateSub next2 today)) := by
  refine ⟨?_, rfl, rfl, ?_⟩
  · intro r today h
    simp [Record.days_to_birthday, h]
  · intro b today next next2 h1 h2 h3
    simp [nextBirthdayDelta, h1, h2, h3]

/-- Closed instance of the C8 theorem: no birthday set. -/
theorem c8_witness :
    Record.days_to_birthday ⟨"X", [], none⟩ ⟨2024, 1, 1⟩ = .ok none :=
  c8_days_to_birthday.1 ⟨"X", [], none⟩ ⟨2024, 1, 1⟩ rfl

/-- C10: `add` with a name absent from the book and a phone that fails
validation first inserts a fresh record (empty phone list) and only then
raises; the dispatcher reports the validation message while the book keeps
the new empty record — the operation is not atomic on error. -/
theorem c10_add_contact_not_atomic (book : AddressBook) (name p : String)
    (hfind : book.find name = none) (hp : p ≠ "")
    (hbad : (pyIsdigit p && p.length == 10) = false) :
    input_error (add_contact [name, p] book)
      = (.ok phoneErrMsg, book.add_record (Record.new name))
    ∧ (book.add_record (Record.new name)).find name = some (Record.new name) := by
  constructor
  · have hphone : Phone.new p = .error (.valueError phoneErrMsg) := by
      simp [Phone.new, hbad]
    simp [add_contact, unpack2, hfind, hp, hphone, input_error, phoneErrMsg]
  · exact dictGet_dictSet book.data (pyLower name) (Record.new name)

/-- Closed instance of the C10 theorem. -/
theorem c10_witness :
    input_error (add_contact ["John", "123"] ⟨[]⟩)
      = (.ok phoneErrMsg, AddressBook.add_record ⟨[]⟩ (Record.new "John")) :=
  (c10_add_contact_not_atomic ⟨[]⟩ "John" "123" rfl (by decide) (by decide)).1

/-- C7: after `add_record`, `find` succeeds with the very record under any
case variation of its name. -/
theorem c7_find_after_add_record_case_insensitive (book : AddressBook) (r : Record)
    (q : String) (h : pyLower q = pyLower r.name) :
    (book.add_record r).find q = some r := by
  show dictGet (dictSet book.data (pyLower r.name) r) (pyLower q) = some r
  rw [h]
  exact dictGet_dictSet book.data (pyLower r.name) r

/-- Closed instance of the C7 theorem. -/
theorem c7_witness :
    (AddressBook.add_record ⟨[]⟩ ⟨"John", [], none⟩).find "JOHN" = some ⟨"John", [], none⟩ :=
  c7_find_after_add_record_case_insensitive ⟨[]⟩ ⟨"John", [], none⟩ "JOHN" (by decide)

/-- Unfolding `upcomingGo` over a record without a birthday. -/
theorem upcomingGo_cons_none {today : PyDate} {days : Int} {r : Record}
    {rs : List Record} {acc : List (String × Int)} (hb : r.birthday = none) :
    upcomingGo today days (r :: rs) acc = upcomingGo today days rs acc := by
  simp [upcomingGo, hb]

/-- Unfolding `upcomingGo` over a record whose delta computes. -/
theorem upcomingGo_cons_some {today : PyDate} {days delta : Int} {r : Record} {b : PyDate}
    {rs : List Record} {acc : List (String × Int)} (hb : r.birthday = some b)
    (hdel : nextBirthdayDelta b today = .ok delta) :
    upcomingGo today days (r :: rs) acc =
      upcomingGo today days rs (if delta ≤ days then acc ++ [(r.name, delta)] else acc) := by
  simp [upcomingGo, hb, hdel]

/-- Unfolding `upcomingGo` over a record whose delta raises. -/
theorem upcomingGo_cons_err {today : PyDate} {days : Int} {r : Record} {b : PyDate}
    {e : PyExc} {rs : List Record} {acc : List (String × Int)} (hb : r.birthday = some b)
    (hdel : nextBirthdayDelta b today = .error e) :
    upcomingGo today days (r :: rs) acc = .error e := by
  simp [upcomingGo, hb, hdel]

/-- Membership in a successful `upcomingGo` run: exactly the accumulator
plus the qualifying `(name, delta)` pairs of the remaining records. -/
theorem upcomingGo_mem (today : PyDate) (days : Int) :
    ∀ (rs : List Record) (acc res : List (String × Int)),
      upcomingGo today days rs acc = .ok res →
      ∀ (nm : String) (dd : Int),
        ((nm, dd) ∈ res ↔ (nm, dd) ∈ acc ∨
          ∃ r ∈ rs, r.name = nm ∧ ∃ b, r.birthday = some b ∧
            nextBirthdayDelta b today = .ok dd ∧ dd ≤ days) := by
  intro rs
  induction rs with
  | nil =>
    intro acc res h nm dd
    have hac : acc = res := by simpa [upcomingGo] using h
    subst hac
    simp
  | cons r rs ih =>
    intro acc res h nm dd
    rcases hb : r.birthday with _ | b
    · rw [upcomingGo_cons_none hb] at h
      rw [ih acc res h nm dd]
      constructor
      · rintro (hacc | ⟨r', hr', hname, b', hb', hdel', hdd⟩)
        · exact Or.inl hacc
        · exact Or.inr ⟨r', List.mem_cons_of_mem r hr', hname, b', hb', hdel', hdd⟩
      · rintro (hacc | ⟨r', hr', hname, b', hb', hdel', hdd⟩)
        · exact Or.inl hacc
        · rcases List.mem_cons.mp hr' with rfl | hmem
          · rw [hb] at hb'
            exact absurd hb' (by simp)
          · exact Or.inr ⟨r', hmem, hname, b', hb', hdel', hdd⟩
    · rcases hdel : nextBirthdayDelta b today with e | delta
      · rw [upcomingGo_cons_err hb hdel] at h
        simp at h
      · rw [upcomingGo_cons_some hb hdel] at h
        rw [ih _ res h nm dd]
        by_cases hle : delta ≤ days
        · rw [if_pos hle]
          constructor
          · rintro (hin | ⟨r', hr', hname, b', hb', hdel', hdd⟩)
            · rcases List.mem_append.mp hin with hacc | hsing
              · exact Or.inl hacc
              · have hpair : (nm, dd) = (r.name, delta) := by simpa using hsing
                injection hpair with hnm hdd
                subst hnm; subst hdd
                exact Or.inr ⟨r, List.mem_cons_self r rs, rfl, b, hb, hdel, hle⟩
            · exact Or.inr ⟨r', List.mem_cons_of_mem r hr', hname, b', hb', hdel', hdd⟩
          · rintro (hacc | ⟨r', hr', hname, b', hb', hdel', hdd⟩)
            · exact Or.inl (List.mem_append.mpr (Or.inl hacc))
            · rcases List.mem_cons.mp hr' with rfl | hmem
              · rw [hb] at hb'
                injection hb' with hbeq
                subst hbeq
                rw [hdel] at hdel'
                injection hdel' with hdeq
                subst hname
                rw [← hdeq]
                exact Or.inl (List.mem_append.mpr (Or.inr (by simp)))
              · exact Or.inr ⟨r', hmem, hname, b', hb', hdel', hdd⟩
        · rw [if_neg hle]
          constructor
          · rintro (hacc | ⟨r', hr', hname, b', hb', hdel', hdd⟩)
            · exact Or.inl hacc
            · exact Or.inr ⟨r', List.mem_cons_of_mem r hr', hname, b', hb', hdel', hdd⟩
          · rintro (hacc | ⟨r', hr', hname, b', hb', hdel', hdd⟩)
            · exact Or.inl hacc
            · rcases List.mem_cons.mp hr' with rfl | hmem
              · rw [hb] at hb'
                injection hb' with hbeq
                subst hbeq
                rw [hdel] at hdel'
                injection hdel' with hdeq
                subst hdeq
                exact absurd hdd hle
              · exact Or.inr ⟨r', hmem, hname, b', hb', hdel', hdd⟩

/-- C9: a successful `get_upcoming_birthdays` with window 7 contains
`(name, delta)` exactly for the records with a birthday whose computed
delta is at most 7 — so a 0-day and a 7-day contact are included and an
8-day contact is excluded. -/
theorem c9_upcoming_birthdays_window (book : AddressBook) (today : PyDate)
    (res : List (String × Int)) (h : book.get_upcoming_birthdays 7 today = .ok res)
    (nm : String) (dd : Int) :
    (nm, dd) ∈ res ↔ ∃ r ∈ book.data.map Prod.snd, r.name = nm ∧
      ∃ b, r.birthday = some b ∧ nextBirthdayDelta b today = .ok dd ∧ dd ≤ 7 := by
  have hmem := upcomingGo_mem today 7 (book.data.map Prod.snd) [] res h nm dd
  simpa using hmem

/-- Closed instance of the C9 theorem: today 2024-01-01, birthdays on
Jan 8 (7 days, included), Jan 9 (8 days, excluded), Jan 1 (0 days,
included); the scan returns exactly the 7-day and 0-day contacts, and the
7-day membership is converted through the theorem. -/
theorem c9_witness :
    ∃ r ∈ (AddressBook.mk [("a", ⟨"A", [], some ⟨2020, 1, 8⟩⟩),
        ("b", ⟨"B", [], some ⟨2020, 1, 9⟩⟩),
        ("c", ⟨"C", [], some ⟨2020, 1, 1⟩⟩)]).data.map Prod.snd,
      r.name = "A" ∧ ∃ bd, r.birthday = some bd ∧
        nextBirthdayDelta bd ⟨2024, 1, 1⟩ = .ok 7 ∧ (7 : Int) ≤ 7 :=
  (c9_upcoming_birthdays_window
      ⟨[("a", ⟨"A", [], some ⟨2020, 1, 8⟩⟩), ("b", ⟨"B", [], some ⟨2020, 1, 9⟩⟩),
        ("c", ⟨"C", [], some ⟨2020, 1, 1⟩⟩)]⟩
      ⟨2024, 1, 1⟩ [("A", 7), ("C", 0)] rfl "A" 7).mp (by simp)

/-- C5 counterexample: ten superscript-two characters pass Python
`str.isdigit` and have length 10, so `Phone` accepts them, although the
string does not match `^\d{10}$`. -/
theorem c5_counterexample_superscript_digits :
    Phone.new "²²²²²²²²²²" = .ok "²²²²²²²²²²"
    ∧ matchesTenDecimalDigits "²²²²²²²²²²" = false :=
  ⟨rfl, rfl⟩

/-- C5 (amended): `Phone` accepts a string iff it passes `str.isdigit`
(a strict superset of `^\d{10}$`) and has length 10, storing it
unchanged; every `^\d{10}$` string is accepted. -/
theorem c5_phone_isdigit_characterization :
    (∀ s : String, Phone.new s = .ok s ↔ (pyIsdigit s = true ∧ s.length = 10))
    ∧ (∀ s : String, matchesTenDecimalDigits s = true → Phone.new s = .ok s)
    ∧ (∀ s v : String, Phone.new s = .ok v → v = s) := by
  have key : ∀ s : String, pyIsdigit s = true → s.length = 10 → Phone.new s = .ok s := by
    intro s h1 h2
    rw [Phone.new, if_pos (by simp [h1, h2])]
  refine ⟨?_, ?_, ?_⟩
  · intro s
    constructor
    · intro h
      by_cases hc : (pyIsdigit s && s.length == 10) = true
      · simpa using hc
      · rw [Phone.new, if_neg hc] at h
        exact absurd h (by simp)
    · intro h
      exact key s h.1 h.2
  · intro s h
    have h2 : s.length = 10 ∧ s.toList.all asciiDigit = true := by
      simpa [matchesTenDecimalDigits] using h
    have hlen : s.toList.length = 10 := h2.1
    have hdig : pyIsdigit s = true := by
      rw [pyIsdigit]
      have hne : s.toList.isEmpty = false := by
        rcases hl : s.toList with _ | ⟨c, cs⟩
        · rw [hl] at hlen; simp at hlen
        · simp
      have hall : s.toList.all pyIsDigitChar = true := by
        rw [List.all_eq_true] at h2 ⊢
        intro c hc
        have := h2.2 c hc
        simp only [pyIsDigitChar, Bool.or_eq_true]
        exact Or.inl (by simpa using this)
      rw [hne, hall]
      rfl
    exact key s hdig h2.1
  · intro s v h
    by_cases hc : (pyIsdigit s && s.length == 10) = true
    · rw [Phone.new, if_pos hc] at h
      injection h with hv
      exact hv.symm
    · rw [Phone.new, if_neg hc] at h
      exact absurd h (by simp)

/-- Closed instance of the C5 amended theorem. -/
theorem c5_witness :
    Phone.new "0123456789" = .ok "0123456789" :=
  c5_phone_isdigit_characterization.2.1 "0123456789" (by decide)

/-! ## Digit-string helpers for the Birthday round trip -/

/-- Numeric bounds of an ASCII digit character. -/
theorem asciiDigit_bounds (c : Char) (h : asciiDigit c = true) :
    48 ≤ c.toNat ∧ c.toNat ≤ 57 := by
  simpa [asciiDigit] using h

/-- The value of an ASCII digit character is at most 9. -/
theorem digitVal_le_nine (c : Char) (h : asciiDigit c = true) : digitVal c ≤ 9 := by
  have hb := asciiDigit_bounds c h
  unfold digitVal
  omega

/-- Rendering the value of an ASCII digit character gives the character
back. -/
theorem digitChar_digitVal (c : Char) (h : asciiDigit c = true) :
    digitChar (digitVal c) = c := by
  have hb := asciiDigit_bounds c h
  unfold digitChar digitVal
  have h48 : 48 + (c.toNat - 48) = c.toNat := by omega
  rw [h48, Char.ofNat_toNat]

/-- The value of a two-character digit group. -/
theorem charsVal_two (c1 c2 : Char) :
    charsVal [c1, c2] = 10 * digitVal c1 + digitVal c2 := by
  simp [charsVal, List.foldl]

/-- The value of a four-character digit group. -/
theorem charsVal_four (c1 c2 c3 c4 : Char) :
    charsVal [c1, c2, c3, c4] =
      1000 * digitVal c1 + 100 * digitVal c2 + 10 * digitVal c3 + digitVal c4 := by
  simp [charsVal, List.foldl]
  ring

/-- Rendering a two-digit value with nonzero leading digit reproduces its
digit characters. -/
theorem natChars_two_digits (c1 c2 : Char) (h1 : asciiDigit c1 = true)
    (h2 : asciiDigit c2 = true) (hnz : 1 ≤ digitVal c1) :
    natChars (charsVal [c1, c2]) = [c1, c2] := by
  have hb1 := digitVal_le_nine c1 h1
  have hb2 := digitVal_le_nine c2 h2
  rw [charsVal_two, natChars]
  rw [Nat.digits_def' (b := 10) (by norm_num) (by omega)]
  have hmod : (10 * digitVal c1 + digitVal c2) % 10 = digitVal c2 := by omega
  have hdiv : (10 * digitVal c1 + digitVal c2) / 10 = digitVal c1 := by omega
  rw [hmod, hdiv]
  rw [Nat.digits_def' (b := 10) (by norm_num) (by omega)]
  have hmod1 : digitVal c1 % 10 = digitVal c1 := by omega
  have hdiv1 : digitVal c1 / 10 = 0 := by omega
  rw [hmod1, hdiv1, Nat.digits_zero]
  simp [digitChar_digitVal c1 h1, digitChar_digitVal c2 h2]

/-- Rendering a four-digit value with nonzero leading digit reproduces its
digit characters. -/
theorem natChars_four_digits (c1 c2 c3 c4 : Char) (h1 : asciiDigit c1 = true)
    (h2 : asciiDigit c2 = true) (h3 : asciiDigit c3 = true) (h4 : asciiDigit c4 = true)
    (hnz : 1 ≤ digitVal c1) :
    natChars (charsVal [c1, c2, c3, c4]) = [c1, c2, c3, c4] := by
  have hb1 := digitVal_le_nine c1 h1
  have hb2 := digitVal_le_nine c2 h2
  have hb3 := digitVal_le_nine c3 h3
  have hb4 := digitVal_le_nine c4 h4
  rw [charsVal_four, natChars]
  rw [Nat.digits_def' (b := 10) (by norm_num) (by omega)]
  have hm4 : (1000 * digitVal c1 + 100 * digitVal c2 + 10 * digitVal c3 + digitVal c4) % 10
      = digitVal c4 := by omega
  have hd4 : (1000 * digitVal c1 + 100 * digitVal c2 + 10 * digitVal c3 + digitVal c4) / 10
      = 100 * digitVal c1 + 10 * digitVal c2 + digitVal c3 := by omega
  rw [hm4, hd4]
  rw [Nat.digits_def' (b := 10) (by norm_num) (by omega)]
  have hm3 : (100 * digitVal c1 + 10 * digitVal c2 + digitVal c3) % 10 = digitVal c3 := by
    omega
  have hd3 : (100 * digitVal c1 + 10 * digitVal c2 + digitVal c3) / 10
      = 10 * digitVal c1 + digitVal c2 := by omega
  rw [hm3, hd3]
  rw [Nat.digits_def' (b := 10) (by norm_num) (by omega)]
  have hm2 : (10 * digitVal c1 + digitVal c2) % 10 = digitVal c2 := by omega
  have hd2 : (10 * digitVal c1 + digitVal c2) / 10 = digitVal c1 := by omega
  rw [hm2, hd2]
  rw [Nat.digits_def' (b := 10) (by norm_num) (by omega)]
  have hm1 : digitVal c1 % 10 = digitVal c1 := by omega
  have hd1 : digitVal c1 / 10 = 0 := by omega
  rw [hm1, hd1, Nat.digits_zero]
  simp [digitChar_digitVal c1 h1, digitChar_digitVal c2 h2,
    digitChar_digitVal c3 h3, digitChar_digitVal c4 h4]

/-- Zero-padded rendering of the value of any two-digit group reproduces
the group. -/
theorem pad2_two_digits (c1 c2 : Char) (h1 : asciiDigit c1 = true)
    (h2 : asciiDigit c2 = true) :
    pad2 (charsVal [c1, c2]) = [c1, c2] := by
  have hb1 := digitVal_le_nine c1 h1
  have hb2 := digitVal_le_nine c2 h2
  by_cases hz : digitVal c1 = 0
  · have hcv : charsVal [c1, c2] = digitVal c2 := by rw [charsVal_two, hz]; omega
    rw [pad2, hcv, if_pos (by omega)]
    have hc1 : c1 = '0' := by
      have := digitChar_digitVal c1 h1
      rw [hz] at this
      exact this.symm
    rw [digitChar_digitVal c2 h2, hc1]
  · rw [pad2, if_neg (by rw [charsVal_two]; omega)]
    exact natChars_two_digits c1 c2 h1 h2 (by omega)

/-- Rejoin dot-separated parts with literal dots. -/
def joinDots : List (List Char) → List Char
  | [] => []
  | [p] => p
  | p :: ps => p ++ '.' :: joinDots ps

/-- `splitOnDot` always produces at least one part. -/
theorem splitOnDot_ne_nil (l : List Char) : splitOnDot l ≠ [] := by
  cases l with
  | nil => simp [splitOnDot]
  | cons c cs =>
    rw [splitOnDot]
    by_cases hc : c = '.'
    · simp [hc]
    · rw [if_neg hc]
      rcases h : splitOnDot cs with _ | ⟨p, ps⟩ <;> simp

/-- `joinDots` over a cons with a nonempty tail inserts a dot. -/
theorem joinDots_cons (p : List Char) (q : List Char) (ps : List (List Char)) :
    joinDots (p :: q :: ps) = p ++ '.' :: joinDots (q :: ps) :=
  rfl

/-- Prepending a character to the first part commutes with `joinDots`. -/
theorem joinDots_cons_head (c : Char) (p : List Char) (ps : List (List Char)) :
    joinDots ((c :: p) :: ps) = c :: joinDots (p :: ps) := by
  cases ps <;> rfl

/-- `joinDots` inverts `splitOnDot`. -/
theorem joinDots_splitOnDot (l : List Char) : joinDots (splitOnDot l) = l := by
  induction l with
  | nil => rfl
  | cons c cs ih =>
    rw [splitOnDot]
    by_cases hc : c = '.'
    · rw [if_pos hc]
      rcases hsp : splitOnDot cs with _ | ⟨p, ps⟩
      · exact absurd hsp (splitOnDot_ne_nil cs)
      · rw [joinDots_cons, ← hsp, ih, hc]
        rfl
    · rw [if_neg hc]
      rcases hsp : splitOnDot cs with _ | ⟨p, ps⟩
      · exact absurd hsp (splitOnDot_ne_nil cs)
      · rw [joinDots_cons_head, ← hsp, ih]

/-- Destructor for a successful `%d` group match. -/
theorem dayToken_some_dest (cs : List Char) (v : Nat) (h : dayToken cs = some v) :
    cs.all asciiDigit = true ∧ (cs.length = 1 ∨ cs.length = 2) ∧
      charsVal cs = v ∧ 1 ≤ v ∧ v ≤ 31 := by
  rw [dayToken] at h
  by_cases h1 : (cs.all asciiDigit && (cs.length == 1 || cs.length == 2)) = true
  · rw [if_pos h1] at h
    by_cases h2 : (1 ≤ charsVal cs && charsVal cs ≤ 31) = true
    · rw [if_pos h2] at h
      injection h with hv
      have hp1 : cs.all asciiDigit = true ∧ (cs.length = 1 ∨ cs.length = 2) := by
        simpa using h1
      have hp2 : 1 ≤ charsVal cs ∧ charsVal cs ≤ 31 := by simpa using h2
      exact ⟨hp1.1, hp1.2, hv, hv ▸ hp2.1, hv ▸ hp2.2⟩
    · rw [if_neg h2] at h
      exact absurd h (by simp)
  · rw [if_neg h1] at h
    exact absurd h (by simp)

/-- Constructor for a `%d` group match. -/
theorem dayToken_some_of (cs : List Char) (h1 : cs.all asciiDigit = true)
    (h2 : cs.length = 1 ∨ cs.length = 2) (h3 : 1 ≤ charsVal cs) (h4 : charsVal cs ≤ 31) :
    dayToken cs = some (charsVal cs) := by
  rw [dayToken, if_pos (by simp [h1, h2]), if_pos (by simp [h3, h4])]

/-- Destructor for a successful `%m` group match. -/
theorem monthToken_some_dest (cs : List Char) (v : Nat) (h : monthToken cs = some v) :
    cs.all asciiDigit = true ∧ (cs.length = 1 ∨ cs.length = 2) ∧
      charsVal cs = v ∧ 1 ≤ v ∧ v ≤ 12 := by
  rw [monthToken] at h
  by_cases h1 : (cs.all asciiDigit && (cs.length == 1 || cs.length == 2)) = true
  · rw [if_pos h1] at h
    by_cases h2 : (1 ≤ charsVal cs && charsVal cs ≤ 12) = true
    · rw [if_pos h2] at h
      injection h with hv
      have hp1 : cs.all asciiDigit = true ∧ (cs.length = 1 ∨ cs.length = 2) := by
        simpa using h1
      have hp2 : 1 ≤ charsVal cs ∧ charsVal cs ≤ 12 := by simpa using h2
      exact ⟨hp1.1, hp1.2, hv, hv ▸ hp2.1, hv ▸ hp2.2⟩
    · rw [if_neg h2] at h
      exact absurd h (by simp)
  · rw [if_neg h1] at h
    exact absurd h (by simp)

/-- Constructor for a `%m` group match. -/
theorem monthToken_some_of (cs : List Char) (h1 : cs.all asciiDigit = true)
    (h2 : cs.length = 1 ∨ cs.length = 2) (h3 : 1 ≤ charsVal cs) (h4 : charsVal cs ≤ 12) :
    monthToken cs = some (charsVal cs) := by
  rw [monthToken, if_pos (by simp [h1, h2]), if_pos (by simp [h3, h4])]

/-- Destructor for a successful `%Y` group match. -/
theorem yearToken_some_dest (cs : List Char) (v : Nat) (h : yearToken cs = some v) :
    cs.all asciiDigit = true ∧ cs.length = 4 ∧ charsVal cs = v := by
  rw [yearToken] at h
  by_cases h1 : (cs.all asciiDigit && cs.length == 4) = true
  · rw [if_pos h1] at h
    injection h with hv
    have hp1 : cs.all asciiDigit = true ∧ cs.length = 4 := by simpa using h1
    exact ⟨hp1.1, hp1.2, hv⟩
  · rw [if_neg h1] at h
    exact absurd h (by simp)

/-- Constructor for a `%Y` group match. -/
theorem yearToken_some_of (cs : List Char) (h1 : cs.all asciiDigit = true)
    (h2 : cs.length = 4) : yearToken cs = some (charsVal cs) := by
  rw [yearToken, if_pos (by simp [h1, h2])]

/-- Every month length is at most 31. -/
theorem daysInMonth_le_31 (y m : Nat) : daysInMonth y m ≤ 31 := by
  unfold daysInMonth monthLengths
  cases isLeap y <;>
    rcases m with _ | _ | _ | _ | _ | _ | _ | _ | _ | _ | _ | _ | m <;>
      simp [List.getD] <;>
    cases m <;> simp

/-- Components of `dateValid`. -/
theorem dateValid_dest (y m d : Nat) (h : dateValid y m d = true) :
    1 ≤ y ∧ y ≤ 9999 ∧ 1 ≤ m ∧ m ≤ 12 ∧ 1 ≤ d ∧ d ≤ daysInMonth y m := by
  simp only [dateValid, Bool.and_eq_true, decide_eq_true_eq] at h
  exact ⟨h.1.1.1.1.1, h.1.1.1.1.2, h.1.1.1.2, h.1.1.2, h.1.2, h.2⟩

/-- Characterization of a successful `strptime "%d.%m.%Y"` parse. -/
theorem pyStrptimeDMY_ok_iff (s : String) (d : PyDate) :
    pyStrptimeDMY s = .ok d ↔ ∃ ds ms ys, splitOnDot s.toList = [ds, ms, ys] ∧
      dayToken ds = some d.day ∧ monthToken ms = some d.month ∧
      yearToken ys = some d.year ∧ dateValid d.year d.month d.day = true := by
  constructor
  · intro h
    rw [pyStrptimeDMY] at h
    rcases hsp : splitOnDot s.toList with _ | ⟨ds, _ | ⟨ms, _ | ⟨ys, _ | ⟨z, zs⟩⟩⟩⟩ <;>
      rw [hsp] at h <;> try simp at h
    rcases hd : dayToken ds with _ | dv <;> rw [hd] at h <;> try simp at h
    rcases hm : monthToken ms with _ | mv <;> rw [hm] at h <;> try simp at h
    rcases hy : yearToken ys with _ | yv <;> rw [hy] at h <;> try simp at h
    by_cases hv : dateValid yv mv dv = true
    · rw [if_pos hv] at h
      injection h with hde
      subst hde
      exact ⟨ds, ms, ys, rfl, hd, hm, hy, hv⟩
    · rw [if_neg (by simpa using hv)] at h
      exact absurd h (by simp)
  · rintro ⟨ds, ms, ys, hsp, hd, hm, hy, hv⟩
    simp only [pyStrptimeDMY, hsp, hd, hm, hy]
    rw [if_pos hv]

/-- `Birthday` construction succeeds exactly when the `strptime` parse
does, with the same date. -/
theorem Birthday_new_ok_iff (s : String) (d : PyDate) :
    Birthday.new s = .ok d ↔ pyStrptimeDMY s = .ok d := by
  rw [Birthday.new]
  cases h : pyStrptimeDMY s <;> simp

/-- C6 counterexample: `strptime`'s `%d`/`%m` accept single-digit day and
month, so `Birthday` accepts `1.1.2024`, which is not in the strict
`DD.MM.YYYY` shape the claim requires for success. -/
theorem c6_counterexample_single_digit_day :
    Birthday.new "1.1.2024" = .ok ⟨2024, 1, 1⟩
    ∧ matchesDDMMYYYY "1.1.2024" = false :=
  ⟨rfl, rfl⟩

/-- C6 (amended), part 1: `Birthday` accepts exactly the lenient
`%d.%m.%Y` shape — 1-2 digit day and month, 4-digit year, valid date. -/
theorem birthday_ok_iff_lenient (s : String) :
    (∃ d, Birthday.new s = .ok d) ↔ lenientDMYFormat s = true := by
  constructor
  · rintro ⟨d, hok⟩
    obtain ⟨ds, ms, ys, hsp, hd, hm, hy, hv⟩ :=
      (pyStrptimeDMY_ok_iff s d).mp ((Birthday_new_ok_iff s d).mp hok)
    obtain ⟨hd1, hd2, hd3, _, _⟩ := dayToken_some_dest ds d.day hd
    obtain ⟨hm1, hm2, hm3, _, _⟩ := monthToken_some_dest ms d.month hm
    obtain ⟨hy1, hy2, hy3⟩ := yearToken_some_dest ys d.year hy
    simp only [lenientDMYFormat, hsp]
    rcases hd2 with h2a | h2a <;> rcases hm2 with h2b | h2b <;>
      simp [hd1, hm1, hy1, h2a, h2b, hy2, hd3, hm3, hy3, hv]
  · intro hlen
    simp only [lenientDMYFormat] at hlen
    rcases hsp : splitOnDot s.toList with _ | ⟨ds, _ | ⟨ms, _ | ⟨ys, _ | ⟨z, zs⟩⟩⟩⟩ <;>
      rw [hsp] at hlen <;> try simp at hlen
    obtain ⟨⟨⟨⟨⟨⟨h1, h2⟩, h3⟩, h4⟩, h5⟩, h6⟩, hvalid⟩ := hlen
    obtain ⟨_, _, hv3, hv4, hv5, hv6⟩ := dateValid_dest _ _ _ hvalid
    refine ⟨⟨charsVal ys, charsVal ms, charsVal ds⟩, ?_⟩
    rw [Birthday_new_ok_iff, pyStrptimeDMY_ok_iff]
    exact ⟨ds, ms, ys, hsp,
      dayToken_some_of ds (by simpa using h1) h4 hv5 (le_trans hv6 (daysInMonth_le_31 _ _)),
      monthToken_some_of ms (by simpa using h2) h5 hv3 hv4,
      yearToken_some_of ys (by simpa using h3) h6, hvalid⟩

/-- C6 (amended), part 2: a stored birthday is always a real calendar
date. -/
theorem birthday_ok_valid (s : String) (d : PyDate) (hok : Birthday.new s = .ok d) :
    dateValid d.year d.month d.day = true := by
  obtain ⟨_, _, _, _, _, _, _, hv⟩ :=
    (pyStrptimeDMY_ok_iff s d).mp ((Birthday_new_ok_iff s d).mp hok)
  exact hv

/-- C6 (amended), part 3: strict `DD.MM.YYYY` inputs with year at least
1000 round-trip through `strftime "%d.%m.%Y"`. -/
theorem birthday_roundtrip (s : String) (d : PyDate) (hmatch : matchesDDMMYYYY s = true)
    (hyear : 1000 ≤ d.year) (hok : Birthday.new s = .ok d) : formatDMY d = s := by
  obtain ⟨ds, ms, ys, hsp, hd, hm, hy, hv⟩ :=
    (pyStrptimeDMY_ok_iff s d).mp ((Birthday_new_ok_iff s d).mp hok)
  simp only [matchesDDMMYYYY, hsp, Bool.and_eq_true, beq_iff_eq] at hmatch
  obtain ⟨⟨⟨hl2d, hl2m⟩, hl4⟩, hall⟩ := hmatch
  simp only [List.all_append, Bool.and_eq_true] at hall
  obtain ⟨⟨hall_ds, hall_ms⟩, hall_ys⟩ := hall
  obtain ⟨a1, a2, rfl⟩ := List.length_eq_two.mp hl2d
  obtain ⟨b1, b2, rfl⟩ := List.length_eq_two.mp hl2m
  rcases ys with _ | ⟨y1, _ | ⟨y2, _ | ⟨y3, _ | ⟨y4, _ | ⟨y5, ytail⟩⟩⟩⟩⟩ <;>
    try simp at hl4
  have hda : asciiDigit a1 = true ∧ asciiDigit a2 = true := by simpa using hall_ds
  have hdb : asciiDigit b1 = true ∧ asciiDigit b2 = true := by simpa using hall_ms
  have hdy : asciiDigit y1 = true ∧ asciiDigit y2 = true ∧ asciiDigit y3 = true ∧
      asciiDigit y4 = true := by simpa using hall_ys
  obtain ⟨_, _, hcd, _, _⟩ := dayToken_some_dest _ _ hd
  obtain ⟨_, _, hcm, _, _⟩ := monthToken_some_dest _ _ hm
  obtain ⟨_, _, hcy⟩ := yearToken_some_dest _ _ hy
  have hnz : 1 ≤ digitVal y1 := by
    have h2 := digitVal_le_nine y2 hdy.2.1
    have h3 := digitVal_le_nine y3 hdy.2.2.1
    have h4 := digitVal_le_nine y4 hdy.2.2.2
    have hcv := charsVal_four y1 y2 y3 y4
    rw [hcy] at hcv
    omega
  have hpd : pad2 d.day = [a1, a2] := by
    rw [← hcd]
    exact pad2_two_digits a1 a2 hda.1 hda.2
  have hpm : pad2 d.month = [b1, b2] := by
    rw [← hcm]
    exact pad2_two_digits b1 b2 hdb.1 hdb.2
  have hpy : natChars d.year = [y1, y2, y3, y4] := by
    rw [← hcy]
    exact natChars_four_digits y1 y2 y3 y4 hdy.1 hdy.2.1 hdy.2.2.1 hdy.2.2.2 hnz
  have hjoin : joinDots [[a1, a2], [b1, b2], [y1, y2, y3, y4]] = s.toList := by
    rw [← hsp]
    exact joinDots_splitOnDot s.toList
  rw [formatDMY, hpd, hpm, hpy]
  show String.mk (joinDots [[a1, a2], [b1, b2], [y1, y2, y3, y4]]) = s
  rw [hjoin]
  rfl

/-- C6: Birthday construction accepts exactly the lenient `%d.%m.%Y`
shape (so the strict-`DD.MM.YYYY`-only claim fails, see the
counterexample); the stored date is always a real calendar date, and
strict `DD.MM.YYYY` inputs with year at least 1000 round-trip through
formatting. -/
theorem c6_birthday_validation :
    (∀ s : String, (∃ d, Birthday.new s = .ok d) ↔ lenientDMYFormat s = true)
    ∧ (∀ (s : String) (d : PyDate), Birthday.new s = .ok d →
        dateValid d.year d.month d.day = true)
    ∧ (∀ (s : String) (d : PyDate), matchesDDMMYYYY s = true → 1000 ≤ d.year →
        Birthday.new s = .ok d → formatDMY d = s) :=
  ⟨birthday_ok_iff_lenient, birthday_ok_valid, birthday_roundtrip⟩

/-- Closed instance of the C6 amended theorem. -/
theorem c6_witness : formatDMY ⟨1990, 6, 15⟩ = "15.06.1990" :=
  c6_birthday_validation.2.2 "15.06.1990" ⟨1990, 6, 15⟩ (by decide) (by decide) rfl

end Task1
